import Mathlib

/-!
Verification development for the document data-extraction engine in
`src/data_extractor.py`.  The Python module is shallowly embedded: every
document object is modelled as explicit data (dynamic attribute presence
becomes `Option`, Python truthiness is spelled out per type, exceptions that
the code catches become `Option`/`Except` values), and each of the four
extraction operations (`extract_text`, `extract_links`, `extract_images`,
`extract_tables`) is a pure Lean function over that data.
Python whitespace (`str.strip`, the regex class `\s`) is modelled uniformly
by `Char.isWhitespace`.
-/

/-! ### Python string primitives used by the module -/

/-- Python `str.strip` on a character list: drop whitespace from both ends. -/
def pyStripList (cs : List Char) : List Char :=
  ((cs.dropWhile Char.isWhitespace).reverse.dropWhile Char.isWhitespace).reverse

/-- Python `str.strip`. -/
def pyStrip (s : String) : String := String.mk (pyStripList s.toList)

/-- Helper for `pySplitlines`: `cur` is the current (reversed) line. -/
def pySplitlinesAux : List Char → List Char → List String
  | [], cur => if cur.isEmpty then [] else [String.mk cur.reverse]
  | '\r' :: '\n' :: rest, cur => String.mk cur.reverse :: pySplitlinesAux rest []
  | '\n' :: rest, cur => String.mk cur.reverse :: pySplitlinesAux rest []
  | '\r' :: rest, cur => String.mk cur.reverse :: pySplitlinesAux rest []
  | c :: rest, cur => pySplitlinesAux rest (c :: cur)

/-- Python `str.splitlines` (line breaks: `\n`, `\r\n`, `\r`). -/
def pySplitlines (s : String) : List String := pySplitlinesAux s.toList []

/-- Character class of the regex `[.!?:"\']` in `merge_lines`. -/
def terminalChars : List Char := ['.', '!', '?', ':', '"', '\'']

/-- Test for `re.search(r'[.!?:"\']\s*$', s)`: the last character before any
trailing whitespace is terminal punctuation. -/
def endsTerminal (s : String) : Bool :=
  match s.toList.reverse.dropWhile Char.isWhitespace with
  | [] => false
  | c :: _ => terminalChars.contains c

/-- One iteration of the accumulation loop in `merge_lines`; the state is
(paragraphs flushed so far, current buffer). -/
def mergeStep (st : List String × String) (line : String) : List String × String :=
  if st.2 = "" then (st.1, line)
  else if endsTerminal st.2 then (st.1 ++ [st.2], line)
  else (st.1, st.2 ++ " " ++ line)

/-- Embedding of `merge_lines` (data_extractor.py lines 7-22). -/
def merge_lines (raw_text : String) : String :=
  let lines := ((pySplitlines raw_text).map pyStrip).filter (fun l => l ≠ "")
  let st := lines.foldl mergeStep ([], "")
  let merged := if st.2 = "" then st.1 else st.1 ++ [st.2]
  String.intercalate "\n\n" merged

theorem lengthDropWhileLe (p : Char → Bool) (l : List Char) :
    (l.dropWhile p).length ≤ l.length := by
  induction l with
  | nil => simp
  | cons c rest ih =>
    by_cases h : p c
    · simpa [List.dropWhile_cons, h] using Nat.le_succ_of_le ih
    · simp [List.dropWhile_cons, h]

/-- Collapse every maximal whitespace run to one space:
the regex substitution `re.sub(r"\s+", " ", ·)`. -/
def collapseWsList (cs : List Char) : List Char :=
  match cs with
  | [] => []
  | c :: rest =>
    if Char.isWhitespace c then ' ' :: collapseWsList (rest.dropWhile Char.isWhitespace)
    else c :: collapseWsList rest
termination_by cs.length
decreasing_by
  · simp only [List.length_cons]
    exact Nat.lt_succ_of_le (lengthDropWhileLe _ _)
  · simp

/-- Python `re.sub(r"\s+", " ", s).strip()`, the whitespace normalisation used
by the page-stream text/plumber paths. -/
def pyCollapseStrip (s : String) : String := pyStrip (String.mk (collapseWsList s.toList))

/-- Python `needle in hay` on strings (substring containment). -/
def pyIn (needle hay : String) : Bool :=
  (hay.toList.tails).any (fun t => needle.toList.isPrefixOf t)

/-- Match of the regex `https?://\S+` anchored at the start of `cs`: returns
the matched characters and the remaining input, or `none`. -/
def urlAt (cs : List Char) : Option (List Char × List Char) :=
  let tryPre : List Char → Option (List Char × List Char) := fun pre =>
    if pre.isPrefixOf cs then
      let after := cs.drop pre.length
      let body := after.takeWhile (fun c => ¬ Char.isWhitespace c)
      if body.isEmpty then none
      else some (pre ++ body, after.drop body.length)
    else none
  match tryPre "https://".toList with
  | some r => some r
  | none => tryPre "http://".toList

/-- Fueled scanner for `re.findall(r"https?://\S+", ·)`. -/
def findUrlsAux : Nat → List Char → List String
  | 0, _ => []
  | _ + 1, [] => []
  | n + 1, c :: rest =>
    match urlAt (c :: rest) with
    | some (m, rest2) => String.mk m :: findUrlsAux n rest2
    | none => findUrlsAux n rest

/-- Python `re.findall(r"https?://\S+", s)`. -/
def pyFindUrls (s : String) : List String := findUrlsAux s.toList.length s.toList

/-- Base64 alphabet. -/
def b64Alphabet : List Char :=
  "ABCDEFGHIJKLMNOPQRSTUVWXYZabcdefghijklmnopqrstuvwxyz0123456789+/".toList

/-- Base64 digit for a 6-bit value. -/
def b64Char (n : Nat) : Char := b64Alphabet.getD n 'A'

/-- Standard base64 of a byte list (bytes are `Nat`s below 256). -/
def b64encodeList : List Nat → List Char
  | [] => []
  | [a] => [b64Char (a / 4), b64Char (a % 4 * 16), '=', '=']
  | [a, b] => [b64Char (a / 4), b64Char (a % 4 * 16 + b / 16), b64Char (b % 16 * 4), '=']
  | a :: b :: c :: rest =>
    b64Char (a / 4) :: b64Char (a % 4 * 16 + b / 16) ::
      b64Char (b % 16 * 4 + c / 64) :: b64Char (c % 64) :: b64encodeList rest

/-- Python `base64.b64encode(blob).decode("utf-8")`. -/
def b64encode (bs : List Nat) : String := String.mk (b64encodeList bs)

/-- Embedding of `infer_font_style` (data_extractor.py lines 25-30). -/
def infer_font_style (font_name : String) : Bool × Bool :=
  if font_name = "" then (false, false)
  else (pyIn "Bold" font_name, pyIn "Italic" font_name || pyIn "Oblique" font_name)

/-! ### Document object model

Dynamic attribute presence (`hasattr`) becomes `Option`; an attribute whose
value may be Python `None` is an inner `Option`.  An exception that the code
catches is modelled by the `Option`/`Except` value of the access that raises
it.  Library facts used: a `python-docx` `Font`/`ColorFormat` object always
exposes its `name`/`rgb`/`highlight_color` attributes (so `hasattr` on them is
true, though the value may be `None`); Python truthiness of a string is
non-emptiness, of a number non-zeroness, of a list non-emptiness, and of any
other object constant true. -/

/-- Span dictionary of a PyMuPDF text line; `extra` holds the dictionary
entries other than the seven named keys. -/
structure MuSpan where
  text : Option String
  font : Option String
  size : Option ℚ
  bbox : Option (List ℚ)
  flags : Option Nat
  origin : Option (ℚ × ℚ)
  color : Option Nat
  extra : List (String × String)
deriving DecidableEq

/-- Line dictionary of a PyMuPDF block (`line.get("spans", [])`). -/
structure MuLine where
  spans : List MuSpan
deriving DecidableEq

/-- Block dictionary of a PyMuPDF page (`block.get("type")`, `block.get("lines", [])`). -/
structure MuBlock where
  btype : Option Nat
  lines : List MuLine
deriving DecidableEq

/-- Link dictionary from `page.get_links()`. -/
structure MuLinkD where
  uri : Option String
  fromRect : Option (List ℚ)
  kind : Option Nat
deriving DecidableEq

/-- Result dictionary of `document.extract_image(xref)`. -/
structure MuXImage where
  image : Option (List Nat)
  width : Option Nat
  height : Option Nat
  ext : Option String
deriving DecidableEq

/-- PyMuPDF page object: own number, rotation, rectangle, text dictionary,
link annotations and the xrefs from `get_images(full=True)`. -/
structure MuPage where
  number : Nat
  rotation : Int
  x0 : ℚ
  y0 : ℚ
  x1 : ℚ
  y1 : ℚ
  blocks : List MuBlock
  links : List MuLinkD
  imageXrefs : List Nat
deriving DecidableEq

/-- PyMuPDF document: `page_count` is `pages.length`, `document[i]` is
`pages[i]`, `extract_image` looks up `ximages`. -/
structure MuDoc where
  metadata : List (String × String)
  pages : List MuPage
  ximages : List (Nat × MuXImage)
deriving DecidableEq

deriving instance DecidableEq for Except

/-- Page of the legacy `document.pages` backend.  `none`: the page has no
`extract_text` attribute; `some (.error m)`: calling it raises with message
`m`; `some (.ok s)`: it returns `s`. -/
structure DocPage where
  extractTextAttr : Option (Except String String)
deriving DecidableEq

/-- pdfplumber page: each accessor either raises (with a message) or returns
an optional value. -/
structure PlumbPage where
  textLayout : Except String (Option String)
  table : Except String (Option (List (List (Option String))))
deriving DecidableEq

/-- Behaviour of `pdfplumber.open(filepath)` for the current file: the open
(or the iteration it guards) raises, or yields the page list. -/
structure PlumberFile where
  openResult : Except String (List PlumbPage)
deriving DecidableEq

/-- python-docx `ColorFormat`: `rgb` is `None` or an RGB value (as its
string form). -/
structure DocxColor where
  rgb : Option String
deriving DecidableEq

/-- python-docx / python-pptx `Font` object. -/
structure DocxFont where
  name : Option String
  size : Option ℚ
  bold : Option Bool
  italic : Option Bool
  underline : Option Bool
  color : Option DocxColor
  highlight_color : Option String
deriving DecidableEq

/-- Text run.  `bold`/`italic`/`underline` are the run-level attributes used
by the flow branch; the slide branch reads the same flags off `font`. -/
structure DocxRun where
  text : String
  font : Option DocxFont
  bold : Option Bool
  italic : Option Bool
  underline : Option Bool
deriving DecidableEq

/-- python-docx paragraph; `style` is the `str(...)` of the style attribute
when present, `runs` is `none` when the attribute is missing. -/
structure DocxPara where
  text : String
  style : Option String
  alignment : Option Nat
  runs : Option (List DocxRun)
deriving DecidableEq

/-- python-docx table: `style` is `str(table.style)` when that object is
truthy; `grid` holds the raw cell texts row by row. -/
structure DocxTable where
  style : Option String
  grid : List (List String)
deriving DecidableEq

/-- Binary part reachable through a relationship table. -/
structure PImagePart where
  blob : List Nat
  ext : Option String
deriving DecidableEq

/-- python-docx inline shape.  `inlineEmbed` is the embed id reached through
`_inline.graphic.graphicData.pic.blipFill.blip` (`none`: some step raises);
`partRelated` models `shape.part.related_parts`. -/
structure InlineShape where
  inlineEmbed : Option String
  docPrName : Option String
  width : Option Int
  height : Option Int
  partRelated : List (String × PImagePart)
deriving DecidableEq

/-- Floating `w:drawing` element.  `blipEmbed = none`: the `a:blip` xpath is
empty (indexing raises); `some none`: the blip has no embed attribute. -/
structure Drawing where
  blipEmbed : Option (Option String)
deriving DecidableEq

/-- Shape type as far as the module distinguishes it (`MSO_SHAPE_TYPE.PICTURE`
is the only compared constant). -/
inductive MsoShapeType where
  | picture
  | group
  | table
  | auto
deriving DecidableEq

/-- Decoded picture object (`shape.image` / `shape.fill.picture`). -/
structure PImage where
  blob : List Nat
  ext : String
  width : Nat
  height : Nat
deriving DecidableEq

/-- Fill format; `ftype` is the `MSO_FILL` value (`6` is `PICTURE`);
`picture = none` means accessing `fill.picture` raises. -/
structure PptFill where
  ftype : Option Nat
  picture : Option PImage
deriving DecidableEq

/-- python-pptx paragraph inside a text frame. -/
structure PptPara where
  text : String
  alignment : Option Nat
  runs : List DocxRun
deriving DecidableEq

/-- python-pptx text frame. -/
structure PptTextFrame where
  paragraphs : List PptPara
deriving DecidableEq

/-- python-pptx table: raw cell texts row by row. -/
structure PTable where
  grid : List (List String)
deriving DecidableEq

/-- Part owning a shape; `related_parts = none` means the attribute is
missing. -/
structure PptPart where
  related_parts : Option (List (String × PImagePart))
deriving DecidableEq

/-- Slide relationship (`slide.part.rels.values()` entry); `target = none`
means accessing `target_part`/`blob` raises. -/
structure PptRel where
  reltype : String
  rId : String
  target : Option PImagePart
deriving DecidableEq

/-- Non-recursive attributes of a python-pptx shape.  `textAttr` is the bare
`text` attribute; `click_action` is `none` when missing or `None`, otherwise
it carries the `hyperlink` attribute value (as its string form);
`accessRaises` means attribute access on this shape raises inside the
`try` blocks of the link and table walks; `image = none` and
`tableAttr = none` mean the corresponding accessor raises; `shape_id = none`
means the attribute is missing (a bare access raises, `getattr` with default
yields `None`); `blips` are the embed ids of the `.//a:blip` xpath matches. -/
structure PptShapeData where
  shape_id : Option Nat
  left : Option Int
  top : Option Int
  width : Option Int
  height : Option Int
  shape_type : Option MsoShapeType
  text_frame : Option PptTextFrame
  textAttr : Option String
  click_action : Option (Option String)
  accessRaises : Bool
  has_table : Bool
  tableAttr : Option PTable
  image : Option PImage
  fill : Option PptFill
  blips : List (Option String)
  part : PptPart

/-- python-pptx shape: its data plus, when it is a group, the child shapes
(`children = none` means no `shapes` attribute). -/
inductive PptShape where
  | mk (data : PptShapeData) (children : Option (List PptShape))

/-- Data component of a shape. -/
def PptShape.data : PptShape → PptShapeData
  | .mk d _ => d

/-- Child shapes of a shape (`none`: no `shapes` attribute). -/
def PptShape.children : PptShape → Option (List PptShape)
  | .mk _ c => c

/-- python-pptx slide: its shape tree and its part's relationships. -/
structure PptSlide where
  shapes : List PptShape
  rels : List PptRel

/-- The opened document handle: each field models one capability marker the
module probes with `hasattr` (`page_count`, `pages`, `paragraphs`,
`inline_shapes`, `element`, `tables`, `slides`). -/
structure Doc where
  mupdf : Option MuDoc
  pages : Option (List DocPage)
  paragraphs : Option (List DocxPara)
  inline_shapes : Option (List InlineShape)
  elementDrawings : Option (List Drawing)
  docPartRelated : List (String × PImagePart)
  tables : Option (List DocxTable)
  slides : Option (List PptSlide)

/-- Call environment: the document returned by `loader.load_file` plus the
availability of the optional backends (`import fitz`, `import pdfplumber`). -/
structure World where
  doc : Doc
  fitz : Bool
  plumber : Option PlumberFile

/-! ### Normalized output records -/

/-- Span metadata record of the page-stream text path (`spans_meta` entry). -/
structure MuSpanRec where
  text : String
  font : String
  size : ℚ
  bbox : List ℚ
  flags : Option Nat
  origin : Option (ℚ × ℚ)
  color : Option Nat
  bold : Bool
  italic : Bool
  additional : List (String × String)
deriving DecidableEq

/-- Item of the page-stream text output: the leading metadata record or a
per-line record. -/
inductive MuTextItem where
  | meta (document_metadata : List (String × String))
  | line (page : Nat) (rotation : Int) (dimensions : List ℚ)
      (line_text : String) (spans : List MuSpanRec)
deriving DecidableEq

/-- Per-page record of the alternate page-stream text backend. -/
structure PageTextRec where
  page : Nat
  text : String
deriving DecidableEq

/-- Run record of the flow-document text path. -/
structure FlowRunRec where
  text : String
  font : Option String
  size : ℚ
  bold : Bool
  italic : Bool
  underline : Bool
  color : Option String
  highlight : Option String
deriving DecidableEq

/-- Paragraph record of the flow-document text path. -/
structure FlowParaRec where
  text : String
  style : Option String
  alignment : Option Nat
  runs : List FlowRunRec
deriving DecidableEq

/-- Run record of the slide-deck text path. -/
structure PptRunRec where
  text : String
  font : Option String
  size : Option ℚ
  bold : Bool
  italic : Bool
  underline : Bool
  color : Option String
deriving DecidableEq

/-- Paragraph record of the slide-deck text path. -/
structure PptParaRec where
  text : String
  alignment : Option Nat
  runs : List PptRunRec
deriving DecidableEq

/-- Shape record of the slide-deck text path; `paragraphs = none` and
`text = none` model the dictionary keys being absent. -/
structure ShapeTextRec where
  shape_id : Option Nat
  left : Option Int
  top : Option Int
  width : Option Int
  height : Option Int
  paragraphs : Option (List PptParaRec)
  text : Option String
deriving DecidableEq

/-- Slide record of the slide-deck text path. -/
structure SlideTextRec where
  slide : Nat
  shapes : List ShapeTextRec
deriving DecidableEq

/-- Result of `extract_text`, tagged by the branch that produced it. -/
inductive TextOut where
  | mupdf (recs : List MuTextItem)
  | pages (recs : List PageTextRec)
  | flow (recs : List FlowParaRec)
  | slides (recs : List SlideTextRec)
deriving DecidableEq

/-- Link record of the primary page-stream path; `kind = none` models the
`link.get("kind", "")` default. -/
structure MuLinkRec where
  page : Nat
  uri : String
  rect : List ℚ
  kind : Option Nat
deriving DecidableEq

/-- Link record of the alternate page-stream path. -/
structure PageLinkRec where
  page : Nat
  uri : String
  contents : String
deriving DecidableEq

/-- Link record of the flow-document path. -/
structure FlowLinkRec where
  text : String
  url : String
deriving DecidableEq

/-- Link record of the slide-deck path. -/
structure PptLinkRec where
  slide : Nat
  text : String
  url : String
deriving DecidableEq

/-- Result of `extract_links`, tagged by branch. -/
inductive LinksOut where
  | mupdf (recs : List MuLinkRec)
  | pages (recs : List PageLinkRec)
  | flow (recs : List FlowLinkRec)
  | slides (recs : List PptLinkRec)
deriving DecidableEq

/-- Image record of the page-stream path. -/
structure MuImageRec where
  page : Nat
  xref : Nat
  format : Option String
  width : Option Nat
  height : Option Nat
  blob : String
deriving DecidableEq

/-- Inline-shape image record of the flow-document path. -/
structure InlineImageRec where
  index : Nat
  filename : String
  blob : String
  width : Option Int
  height : Option Int
deriving DecidableEq

/-- Floating-drawing image record of the flow-document path. -/
structure FloatImageRec where
  floating_index : Nat
  rId : String
  blob : String
deriving DecidableEq

/-- Item of the flow-document image output (the code mixes the two record
shapes in one list). -/
inductive FlowImagesItem where
  | inlineRec (r : InlineImageRec)
  | floating (r : FloatImageRec)
deriving DecidableEq

/-- Image record produced by the shape-tree flattener (width/height are
`none` exactly on the raw-markup fallback path). -/
structure PptImageRec where
  slide : Nat
  image_id : Option Nat
  blob : String
  format : String
  width : Option Nat
  height : Option Nat
deriving DecidableEq

/-- Image record of the relationship-table fallback `extract_images_from_rels`. -/
structure RelImageRec where
  slide : Nat
  rId : String
  format : String
  blob : String
deriving DecidableEq

/-- Item of the slide-deck image output. -/
inductive PptImagesItem where
  | shape (r : PptImageRec)
  | rel (r : RelImageRec)
deriving DecidableEq

/-- Result of `extract_images`, tagged by branch; the `pages` branch never
constructs a record, so its payload type is `Unit`. -/
inductive ImagesOut where
  | mupdf (recs : List MuImageRec)
  | pages (recs : List Unit)
  | flow (recs : List FlowImagesItem)
  | slides (recs : List PptImagesItem)
deriving DecidableEq

/-- Table record of the flow-document path. -/
structure FlowTableRec where
  table_index : Nat
  style : String
  data : List (List String)
  rows : Nat
  columns : Nat
deriving DecidableEq

/-- Table record of the slide-deck path. -/
structure PptTableRec where
  table_index : Nat
  style : String
  slide : Nat
  data : List (List String)
  rows : Nat
  columns : Nat
deriving DecidableEq

/-- Table record of the page-stream (pdfplumber) path; cells may be `None`. -/
structure PdfTableRec where
  page : Nat
  style : String
  data : List (List (Option String))
  rows : Nat
  columns : Nat
deriving DecidableEq

/-- Item of the page-stream table output: a table record or a warning
dictionary. -/
inductive PdfTablesItem where
  | table (r : PdfTableRec)
  | warning (msg : String)
deriving DecidableEq

/-- Result of `extract_tables`, tagged by branch. -/
inductive TablesOut where
  | flow (recs : List FlowTableRec)
  | slides (recs : List PptTableRec)
  | pdf (recs : List PdfTablesItem)
deriving DecidableEq

/-! ### Text extraction (data_extractor.py lines 64-293) -/

/-- Span metadata construction (lines 91-119): each `span.get(key, default)`
passes the value through with the dictionary defaults. -/
def muSpanRec (s : MuSpan) : MuSpanRec :=
  let bi := infer_font_style (s.font.getD "")
  { text := s.text.getD ""
    font := s.font.getD ""
    size := s.size.getD 0
    bbox := s.bbox.getD []
    flags := s.flags
    origin := s.origin
    color := s.color
    bold := bi.1
    italic := bi.2
    additional := s.extra }

/-- Combined line text (lines 84-87): join stripped span texts with spaces,
collapse whitespace, strip. -/
def muLineText (l : MuLine) : String :=
  pyCollapseStrip (String.intercalate " " (l.spans.map (fun s => pyStrip (s.text.getD ""))))

/-- Record for one line of a page-stream page; `none` when the combined text
is empty (line 88-89 `continue`). -/
def muLineItem (pg : MuPage) (l : MuLine) : Option MuTextItem :=
  let t := muLineText l
  if t = "" then none
  else some (.line (pg.number + 1) pg.rotation [pg.x0, pg.y0, pg.x1, pg.y1] t
    (l.spans.map muSpanRec))

/-- Page-stream text body (lines 74-134): a leading metadata record, then one
record per non-empty line of each type-0 block of each page. -/
def mupdfTextBody (m : MuDoc) : List MuTextItem :=
  MuTextItem.meta m.metadata ::
    (m.pages.map (fun pg =>
      ((pg.blocks.filter (fun b => b.btype = some 0)).map
        (fun b => b.lines.filterMap (muLineItem pg))).flatten)).flatten

/-- Per-page text of the rawest fallback tier (lines 148-158 / 160-168):
`merge_lines` of the raw extraction, or an inline error string. -/
def mergeOrError (p : DocPage) : String :=
  match p.extractTextAttr with
  | none => merge_lines ""
  | some (.ok raw) => merge_lines raw
  | some (.error m) => "Error extracting text: " ++ m

/-- Fallback loop over `document.pages`. -/
def fallbackTextLoop (dps : List DocPage) : List PageTextRec :=
  dps.enum.map (fun pr => { page := pr.1 + 1, text := mergeOrError pr.2 })

/-- pdfplumber page loop of the text path (lines 142-146); the Bool reports
whether some page raised (aborting the loop but keeping earlier records). -/
def plumberTextGo : List PlumbPage → Nat → List PageTextRec × Bool
  | [], _ => ([], false)
  | p :: rest, i =>
    match p.textLayout with
    | .error _ => ([], true)
    | .ok t =>
      let txt := match t with
        | some s => if s = "" then "" else pyCollapseStrip s
        | none => ""
      let res := plumberTextGo rest (i + 1)
      ({ page := i + 1, text := txt } :: res.1, res.2)

/-- Alternate page-stream text body (lines 135-169): layout-aware pdfplumber
extraction when available, falling back to `merge_lines` over
`document.pages` when pdfplumber is missing or raises. -/
def pagesTextBody (plumber : Option PlumberFile) (dps : List DocPage) : List PageTextRec :=
  match plumber with
  | none => fallbackTextLoop dps
  | some pf =>
    match pf.openResult with
    | .error _ => fallbackTextLoop dps
    | .ok pps =>
      let res := plumberTextGo pps 0
      if res.2 then res.1 ++ fallbackTextLoop dps else res.1

/-- Flow-document run record (lines 180-207). -/
def flowRunRec (r : DocxRun) : FlowRunRec :=
  { text := r.text
    font := match r.font with
      | some f => f.name
      | none => some "DefaultFont"
    size := match r.font with
      | some f => (match f.size with
        | some v => if v = 0 then 11 else v
        | none => 11)
      | none => 11
    bold := r.bold.getD false
    italic := r.italic.getD false
    underline := r.underline.getD false
    color := match r.font with
      | some f => (match f.color with
        | some c => c.rgb
        | none => some "000000")
      | none => some "000000"
    highlight := match r.font with
      | some f => f.highlight_color
      | none => none }

/-- Flow-document paragraph record (lines 171-209). -/
def flowParaRec (p : DocxPara) : FlowParaRec :=
  { text := if p.text = "" then "" else pyStrip p.text
    style := p.style
    alignment := p.alignment
    runs := (p.runs.getD []).map flowRunRec }

/-- Flow-document text body (lines 170-210). -/
def flowTextBody (ps : List DocxPara) : List FlowParaRec := ps.map flowParaRec

/-- Slide-deck run record (lines 227-263). -/
def pptRunRec (r : DocxRun) : PptRunRec :=
  { text := r.text
    font := match r.font with
      | some f => (match f.name with
        | some n => if n = "" then some "DefaultFont" else some n
        | none => some "DefaultFont")
      | none => some "DefaultFont"
    size := match r.font with
      | some f => (match f.size with
        | some v => if v = 0 then none else some v
        | none => none)
      | none => none
    bold := match r.font with
      | some f => f.bold.getD false
      | none => false
    italic := match r.font with
      | some f => f.italic.getD false
      | none => false
    underline := match r.font with
      | some f => f.underline.getD false
      | none => false
    color := match r.font with
      | some f => (match f.color with
        | some c => c.rgb
        | none => none)
      | none => none }

/-- Paragraph records of a text frame (lines 224-273): runs are collected for
every paragraph, but only paragraphs with non-empty stripped text survive. -/
def pptParaRecsOf (tf : PptTextFrame) : List PptParaRec :=
  tf.paragraphs.filterMap (fun p =>
    let runs := p.runs.map pptRunRec
    let t := pyStrip p.text
    if t = "" then none
    else some { text := t, alignment := p.alignment, runs := runs })

/-- One step of the paragraph de-duplication loop (lines 274-279); the state
is (kept paragraphs, seen texts). -/
def dedupStep (st : List PptParaRec × List String) (p : PptParaRec) :
    List PptParaRec × List String :=
  if p.text ∈ st.2 then st else (st.1 ++ [p], st.2 ++ [p.text])

/-- Paragraph de-duplication by text, keeping first occurrences. -/
def dedupParas (ps : List PptParaRec) : List PptParaRec :=
  (ps.foldl dedupStep ([], [])).1

/-- Python `" ".join(strs)`. -/
def pyJoinSp : List String → String
  | [] => ""
  | [s] => s
  | s :: t :: rest => s ++ " " ++ pyJoinSp (t :: rest)

/-- Shape record of the slide-deck text path (lines 214-286). -/
def shapeTextRec (sh : PptShape) : ShapeTextRec :=
  let d := sh.data
  let base : ShapeTextRec :=
    { shape_id := d.shape_id, left := d.left, top := d.top,
      width := d.width, height := d.height, paragraphs := none, text := none }
  match d.text_frame with
  | some tf =>
    let uniq := dedupParas (pptParaRecsOf tf)
    { base with
      paragraphs := some uniq,
      text := some (pyStrip (pyJoinSp (uniq.map PptParaRec.text))) }
  | none =>
    match d.textAttr with
    | some t => if t = "" then base else { base with text := some (pyStrip t) }
    | none => base

/-- Slide-deck text body (lines 211-290): shapes with no surviving text are
dropped, slides with no surviving shapes are omitted. -/
def slidesTextBody (ss : List PptSlide) : List SlideTextRec :=
  ss.enum.filterMap (fun pr =>
    let items := pr.2.shapes.filterMap (fun sh =>
      let r := shapeTextRec sh
      match r.text with
      | some t => if t = "" then none else some r
      | none => none)
    if items = [] then none else some { slide := pr.1 + 1, shapes := items })

/-- Embedding of `DataExtractor.extract_text` (lines 64-293). -/
def extract_text (w : World) : Except String TextOut :=
  match (if w.fitz then w.doc.mupdf else none) with
  | some m => .ok (.mupdf (mupdfTextBody m))
  | none =>
    match w.doc.pages with
    | some dps => .ok (.pages (pagesTextBody w.plumber dps))
    | none =>
      match w.doc.paragraphs with
      | some ps => .ok (.flow (flowTextBody ps))
      | none =>
        match w.doc.slides with
        | some ss => .ok (.slides (slidesTextBody ss))
        | none => .error "Unsupported file type for text extraction"

/-! ### Link extraction (data_extractor.py lines 295-380) -/

/-- Link loop over one page's annotations (lines 309-322); `seen` is the
`(0-based page, uri)` suppression set. -/
def muLinksLinks (i : Nat) : List MuLinkD → List (Nat × String) →
    List MuLinkRec × List (Nat × String)
  | [], seen => ([], seen)
  | l :: rest, seen =>
    let uri := l.uri.getD ""
    if uri = "" then muLinksLinks i rest seen
    else if (i, uri) ∈ seen then muLinksLinks i rest seen
    else
      let res := muLinksLinks i rest ((i, uri) :: seen)
      ({ page := i + 1, uri := uri, rect := l.fromRect.getD [], kind := l.kind } :: res.1,
        res.2)

/-- Page loop of the primary link path (lines 306-322). -/
def muLinksPages : List MuPage → Nat → List (Nat × String) → List MuLinkRec
  | [], _, _ => []
  | pg :: rest, i, seen =>
    let res := muLinksLinks i pg.links seen
    res.1 ++ muLinksPages rest (i + 1) res.2

/-- Primary page-stream link body (lines 304-323). -/
def mupdfLinksBody (m : MuDoc) : List MuLinkRec := muLinksPages m.pages 0 []

/-- pdfplumber page loop of the link path (lines 331-338); a raising page
aborts the loop, keeping earlier records (the except clause is `pass`). -/
def plumberLinksGo : List PlumbPage → Nat → List PageLinkRec
  | [], _ => []
  | p :: rest, i =>
    match p.textLayout with
    | .error _ => []
    | .ok t =>
      ((pyFindUrls (t.getD "")).map
        (fun u => { page := i + 1, uri := u, contents := "" }))
        ++ plumberLinksGo rest (i + 1)

/-- Fallback link loop over `document.pages` (lines 342-351); a raising page
is skipped. -/
def fallbackLinksLoop (dps : List DocPage) : List PageLinkRec :=
  (dps.enum.map (fun pr =>
    match pr.2.extractTextAttr with
    | some (.error _) => ([] : List PageLinkRec)
    | some (.ok raw) =>
      (pyFindUrls (merge_lines raw)).map
        (fun u => { page := pr.1 + 1, uri := u, contents := "" })
    | none =>
      (pyFindUrls (merge_lines "")).map
        (fun u => { page := pr.1 + 1, uri := u, contents := "" }))).flatten

/-- Alternate page-stream link body (lines 324-352). -/
def pagesLinksBody (plumber : Option PlumberFile) (dps : List DocPage) : List PageLinkRec :=
  match plumber with
  | none => fallbackLinksLoop dps
  | some pf =>
    match pf.openResult with
    | .error _ => []
    | .ok pps => plumberLinksGo pps 0

/-- Flow-document link body (lines 353-356): any paragraph containing the
substring "http" is emitted whole as both text and url. -/
def flowLinksBody (ps : List DocxPara) : List FlowLinkRec :=
  ps.filterMap (fun p =>
    if pyIn "http" p.text then some { text := pyStrip p.text, url := pyStrip p.text }
    else none)

/-- Shape loop of the slide-deck link path (lines 360-377); `seen` is the
`(url, text)` suppression set, shared across slides. -/
def pptLinksShapes (i : Nat) : List PptShape → List (String × String) →
    List PptLinkRec × List (String × String)
  | [], seen => ([], seen)
  | sh :: rest, seen =>
    let d := sh.data
    if d.accessRaises then pptLinksShapes i rest seen
    else
      match d.click_action with
      | some (some hl) =>
        let url := pyStrip hl
        let text := match d.textAttr with
          | some t => if t = "" then "" else pyStrip t
          | none => ""
        if url ≠ "" ∧ (url, text) ∉ seen then
          let res := pptLinksShapes i rest ((url, text) :: seen)
          ({ slide := i + 1, text := text, url := url } :: res.1, res.2)
        else pptLinksShapes i rest seen
      | _ => pptLinksShapes i rest seen

/-- Slide loop of the slide-deck link path (lines 358-377). -/
def pptLinksSlides : List PptSlide → Nat → List (String × String) → List PptLinkRec
  | [], _, _ => []
  | sl :: rest, i, seen =>
    let res := pptLinksShapes i sl.shapes seen
    res.1 ++ pptLinksSlides rest (i + 1) res.2

/-- Slide-deck link body (lines 357-377). -/
def pptLinksBody (ss : List PptSlide) : List PptLinkRec := pptLinksSlides ss 0 []

/-- Embedding of `DataExtractor.extract_links` (lines 295-380). -/
def extract_links (w : World) : Except String LinksOut :=
  match (if w.fitz then w.doc.mupdf else none) with
  | some m => .ok (.mupdf (mupdfLinksBody m))
  | none =>
    match w.doc.pages with
    | some dps => .ok (.pages (pagesLinksBody w.plumber dps))
    | none =>
      match w.doc.paragraphs with
      | some ps => .ok (.flow (flowLinksBody ps))
      | none =>
        match w.doc.slides with
        | some ss => .ok (.slides (pptLinksBody ss))
        | none => .error "Unsupported file type for link extraction"

/-! ### Image extraction (data_extractor.py lines 382-545) -/

/-- Lookup for `document.extract_image(xref)`. -/
def muXImageFor (m : MuDoc) (xref : Nat) : MuXImage :=
  (m.ximages.lookup xref).getD { image := none, width := none, height := none, ext := none }

/-- Page-stream image body (lines 457-482). -/
def mupdfImagesBody (m : MuDoc) : List MuImageRec :=
  (m.pages.enum.map (fun pr =>
    pr.2.imageXrefs.map (fun xref =>
      let bi := muXImageFor m xref
      { page := pr.1 + 1
        xref := xref
        format := bi.ext
        width := bi.width
        height := bi.height
        blob := match bi.image with
          | some bs => if bs = [] then "" else b64encode bs
          | none => "" }))).flatten

/-- Inline-shape pass of the flow-document image path (lines 495-510); any
failing step skips the shape. -/
def inlineImagesPass (shs : List InlineShape) : List FlowImagesItem :=
  shs.enum.filterMap (fun pr =>
    match pr.2.inlineEmbed with
    | none => none
    | some embedId =>
      match pr.2.partRelated.lookup embedId with
      | none => none
      | some part =>
        some (.inlineRec
          { index := pr.1 + 1
            filename := pr.2.docPrName.getD ("Image" ++ toString (pr.1 + 1))
            blob := b64encode part.blob
            width := pr.2.width
            height := pr.2.height }))

/-- Floating-drawing pass of the flow-document image path (lines 511-532). -/
def floatingImagesPass (partRelated : List (String × PImagePart)) (ds : List Drawing) :
    List FlowImagesItem :=
  ds.enum.filterMap (fun pr =>
    match pr.2.blipEmbed with
    | none => none
    | some none => none
    | some (some rId) =>
      match partRelated.lookup rId with
      | none => none
      | some part =>
        some (.floating { floating_index := pr.1 + 1, rId := rId, blob := b64encode part.blob }))

/-- Flow-document image body (lines 494-532): the inline pass, then the
floating pass when the document exposes `element`. -/
def flowImagesBody (d : Doc) (shs : List InlineShape) : List FlowImagesItem :=
  inlineImagesPass shs ++
    (match d.elementDrawings with
     | some ds => floatingImagesPass d.docPartRelated ds
     | none => [])

/-- Picture checks of the shape-tree flattener (lines 384-413): the
`shape_type == PICTURE` branch, else the picture-fill branch; a raising
access (`image`, `fill.picture`, `shape_id`) yields no record. -/
def picturePass (slideIdx : Nat) (d : PptShapeData) : List PptImagesItem :=
  if d.shape_type = some MsoShapeType.picture then
    match d.image, d.shape_id with
    | some img, some sid =>
      [.shape { slide := slideIdx, image_id := some sid, blob := b64encode img.blob,
                format := img.ext, width := some img.width, height := some img.height }]
    | _, _ => []
  else
    match d.fill with
    | some fl =>
      if fl.ftype = some 6 then
        match fl.picture, d.shape_id with
        | some img, some sid =>
          [.shape { slide := slideIdx, image_id := some sid, blob := b64encode img.blob,
                    format := img.ext, width := some img.width, height := some img.height }]
        | _, _ => []
      else []
    | none => []

/-- Raw-markup fallback of the shape-tree flattener (lines 419-445): first
`a:blip` embed id, resolved through the part relationship table; width and
height are null here. -/
def markupFallback (slideIdx : Nat) (d : PptShapeData) : List PptImagesItem :=
  match d.blips with
  | [] => []
  | b0 :: _ =>
    match b0 with
    | some rId =>
      if rId = "" then []
      else
        match d.part.related_parts with
        | some relmap =>
          match relmap.lookup rId with
          | some part =>
            [.shape { slide := slideIdx, image_id := d.shape_id, blob := b64encode part.blob,
                      format := part.ext.getD "unknown", width := none, height := none }]
          | none => []
        | none => []
    | none => []

mutual

/-- Embedding of `DataExtractor._extract_ppt_images_from_shape`
(lines 382-446). -/
def flattenPptShape (slideIdx : Nat) : PptShape → List PptImagesItem
  | .mk d children =>
    picturePass slideIdx d ++
      match children with
      | some cs => flattenPptShapes slideIdx cs
      | none => markupFallback slideIdx d

/-- Recursion of the flattener over a child-shape list. -/
def flattenPptShapes (slideIdx : Nat) : List PptShape → List PptImagesItem
  | [] => []
  | s :: rest => flattenPptShape slideIdx s ++ flattenPptShapes slideIdx rest

end

/-- Primary slide-deck image walk (lines 534-538). -/
def slidesImagesMain (ss : List PptSlide) : List PptImagesItem :=
  (ss.enum.map (fun pr => flattenPptShapes (pr.1 + 1) pr.2.shapes)).flatten

/-- Embedding of `extract_images_from_rels` (lines 33-57). -/
def extract_images_from_rels (ss : List PptSlide) : List RelImageRec :=
  (ss.enum.map (fun pr =>
    pr.2.rels.filterMap (fun rel =>
      if pyIn "image" rel.reltype then
        match rel.target with
        | some part =>
          some { slide := pr.1 + 1, rId := rel.rId,
                 format := part.ext.getD "unknown", blob := b64encode part.blob }
        | none => none
      else none))).flatten

/-- Slide-deck image body (lines 533-542): the recursive walk, then the
relationship fallback only when the walk found nothing at all. -/
def slidesImagesBody (ss : List PptSlide) : List PptImagesItem :=
  let primary := slidesImagesMain ss
  if primary = [] then (extract_images_from_rels ss).map .rel else primary

/-- Embedding of `DataExtractor.extract_images` (lines 448-545). -/
def extract_images (w : World) : Except String ImagesOut :=
  match (if w.fitz then w.doc.mupdf else none) with
  | some m => .ok (.mupdf (mupdfImagesBody m))
  | none =>
    match w.doc.pages with
    | some _ => .ok (.pages [])
    | none =>
      match w.doc.inline_shapes with
      | some shs => .ok (.flow (flowImagesBody w.doc shs))
      | none =>
        match w.doc.slides with
        | some ss => .ok (.slides (slidesImagesBody ss))
        | none => .error "Unsupported file type for image extraction"

/-! ### Table extraction (data_extractor.py lines 547-637) -/

/-- Column count used by every table branch:
`len(data[0]) if data and data[0] else 0`. -/
def tableColumns {α : Type} (data : List (List α)) : Nat :=
  match data with
  | [] => 0
  | [] :: _ => 0
  | (c :: r0) :: _ => (c :: r0).length

/-- Flow-document table body (lines 550-567). -/
def flowTablesBody (ts : List DocxTable) : List FlowTableRec :=
  ts.enum.map (fun pr =>
    let data := pr.2.grid.map (fun row => row.map pyStrip)
    { table_index := pr.1 + 1
      style := pr.2.style.getD "DefaultTableStyle"
      data := data
      rows := data.length
      columns := tableColumns data })

/-- Shape loop of the slide-deck table path (lines 571-596); `counter` is the
global 1-based table counter, advanced only on emitted tables. -/
def pptTablesShapes (i counter : Nat) : List PptShape → List PptTableRec × Nat
  | [] => ([], counter)
  | sh :: rest =>
    let d := sh.data
    if d.accessRaises then pptTablesShapes i counter rest
    else if d.has_table then
      match d.tableAttr with
      | some tb =>
        let data := tb.grid.map (fun row => row.map pyStrip)
        if data = [] then pptTablesShapes i counter rest
        else
          let res := pptTablesShapes i (counter + 1) rest
          ({ table_index := counter, style := "DefaultPPTTable", slide := i + 1,
             data := data, rows := data.length, columns := tableColumns data } :: res.1,
            res.2)
      | none => pptTablesShapes i counter rest
    else pptTablesShapes i counter rest

/-- Slide loop of the slide-deck table path (lines 568-596). -/
def pptTablesSlides : List PptSlide → Nat → Nat → List PptTableRec
  | [], _, _ => []
  | sl :: rest, i, counter =>
    let res := pptTablesShapes i counter sl.shapes
    res.1 ++ pptTablesSlides rest (i + 1) res.2

/-- Slide-deck table body (lines 568-596). -/
def pptTablesBody (ss : List PptSlide) : List PptTableRec := pptTablesSlides ss 0 1

/-- pdfplumber page loop of the table path (lines 604-620); the second
component carries the message of a raising page (aborting the loop). -/
def plumbTablesGo : List PlumbPage → Nat → List PdfTablesItem × Option String
  | [], _ => ([], none)
  | p :: rest, i =>
    match p.table with
    | .error m => ([], some m)
    | .ok t =>
      let here : List PdfTablesItem := match t with
        | some grid =>
          if grid = [] then []
          else [.table { page := i + 1, style := "N/A", data := grid,
                         rows := grid.length, columns := tableColumns grid }]
        | none => []
      let res := plumbTablesGo rest (i + 1)
      (here ++ res.1, res.2)

/-- Page-stream table body (lines 597-634): pdfplumber when available, with
warning records for unavailability, failure, or no tables found. -/
def pdfTablesBody (plumber : Option PlumberFile) : List PdfTablesItem :=
  match plumber with
  | none => [.warning "pdfplumber not installed. Install pdfplumber for PDF table extraction."]
  | some pf =>
    match pf.openResult with
    | .error m => [.warning ("Error extracting tables with pdfplumber: " ++ m)]
    | .ok pps =>
      let res := plumbTablesGo pps 0
      match res.2 with
      | some m => res.1 ++ [.warning ("Error extracting tables with pdfplumber: " ++ m)]
      | none => if res.1 = [] then [.warning "No tables found with pdfplumber."] else res.1

/-- Embedding of `DataExtractor.extract_tables` (lines 547-637); note the
probe order: `tables`, then `slides`, then `page_count` (with no `import
fitz` guard and no `pages` tier). -/
def extract_tables (w : World) : Except String TablesOut :=
  match w.doc.tables with
  | some ts => .ok (.flow (flowTablesBody ts))
  | none =>
    match w.doc.slides with
    | some ss => .ok (.slides (pptTablesBody ss))
    | none =>
      match w.doc.mupdf with
      | some _ => .ok (.pdf (pdfTablesBody w.plumber))
      | none => .error "Unsupported file type for table extraction"

/-! ### Specification-side definitions

These follow the wording of the specification, to be compared with the
embedded code. -/

/-- Reflow accumulation exactly as the specification words it: accumulate
lines into a buffer, flush the buffer as a completed unit whenever it ends in
terminal punctuation (optionally followed by trailing whitespace), otherwise
append the next line separated by a single space; flush any remainder at the
end. -/
def mergeUnitsSpec : List String → String → List String
  | [], buffer => if buffer = "" then [] else [buffer]
  | line :: rest, buffer =>
    if buffer = "" then mergeUnitsSpec rest line
    else if endsTerminal buffer then buffer :: mergeUnitsSpec rest line
    else mergeUnitsSpec rest (buffer ++ " " ++ line)

/-- Reflow heuristic as the specification words it: split into trimmed
non-empty lines, accumulate and flush per `mergeUnitsSpec`, join completed
units with a blank line between them. -/
def mergeLinesSpec (raw_text : String) : String :=
  let lines := ((pySplitlines raw_text).map pyStrip).filter (fun l => l ≠ "")
  String.intercalate "\n\n" (mergeUnitsSpec lines "")

/-- First-occurrence filtering as the specification words slide-paragraph
de-duplication: keep a paragraph iff its text was not seen before. -/
def firstOccurSpec : List PptParaRec → List String → List PptParaRec
  | [], _ => []
  | p :: rest, seen =>
    if p.text ∈ seen then firstOccurSpec rest seen
    else p :: firstOccurSpec rest (seen ++ [p.text])

/-! ### C9: the text reflow heuristic -/

theorem mergeFoldlSpec (ls : List String) (acc : List String) (b : String) :
    (if (ls.foldl mergeStep (acc, b)).2 = "" then (ls.foldl mergeStep (acc, b)).1
     else (ls.foldl mergeStep (acc, b)).1 ++ [(ls.foldl mergeStep (acc, b)).2])
      = acc ++ mergeUnitsSpec ls b := by
  induction ls generalizing acc b with
  | nil =>
    by_cases hb : b = "" <;> simp [mergeUnitsSpec, hb]
  | cons l rest ih =>
    by_cases hb : b = ""
    · have h1 : mergeStep (acc, b) l = (acc, l) := by simp [mergeStep, hb]
      have h2 : mergeUnitsSpec (l :: rest) b = mergeUnitsSpec rest l := by
        simp [mergeUnitsSpec, hb]
      rw [List.foldl_cons, h1, h2]
      exact ih acc l
    · by_cases ht : endsTerminal b
      · have h1 : mergeStep (acc, b) l = (acc ++ [b], l) := by simp [mergeStep, hb, ht]
        have h2 : mergeUnitsSpec (l :: rest) b = b :: mergeUnitsSpec rest l := by
          simp [mergeUnitsSpec, hb, ht]
        rw [List.foldl_cons, h1, h2, ih (acc ++ [b]) l]
        simp
      · have h1 : mergeStep (acc, b) l = (acc, b ++ " " ++ l) := by simp [mergeStep, hb, ht]
        have h2 : mergeUnitsSpec (l :: rest) b = mergeUnitsSpec rest (b ++ " " ++ l) := by
          simp [mergeUnitsSpec, hb, ht]
        rw [List.foldl_cons, h1, h2]
        exact ih acc (b ++ " " ++ l)

/-- C9: `merge_lines` splits its input into trimmed non-empty lines,
accumulates them into a buffer, flushes the buffer whenever it ends in one of
the terminal punctuation characters (optionally followed by trailing
whitespace), otherwise appends the next line separated by a single space,
flushes the remainder, and joins the completed units with a blank line:
the code equals the specification-side `mergeLinesSpec` on every input. -/
theorem merge_lines_matches_spec (raw_text : String) :
    merge_lines raw_text = mergeLinesSpec raw_text := by
  have h := mergeFoldlSpec (((pySplitlines raw_text).map pyStrip).filter (fun l => l ≠ "")) [] ""
  simp only [List.nil_append] at h
  simp only [merge_lines, mergeLinesSpec]
  rw [h]

/-! ### Concrete fixtures used by witnesses and counterexamples -/

/-- Document handle exposing none of the probed capability markers. -/
def emptyDoc : Doc :=
  { mupdf := none, pages := none, paragraphs := none, inline_shapes := none,
    elementDrawings := none, docPartRelated := [], tables := none, slides := none }

/-- World around `emptyDoc` with both optional backends importable. -/
def emptyWorld : World := { doc := emptyDoc, fitz := true, plumber := none }

/-- Page-stream document with no pages. -/
def muDoc0 : MuDoc := { metadata := [], pages := [], ximages := [] }

/-- Flow table with a ragged two-row grid. -/
def table0 : DocxTable := { style := none, grid := [[" a ", "b"], ["c"]] }

/-- Handle exposing both the page-count-like marker and the table-collection
marker. -/
def c1World : World :=
  { doc := { emptyDoc with mupdf := some muDoc0, tables := some [table0] },
    fitz := true, plumber := none }

/-! ### C2: unsupported handles fail fast in all four operations -/

/-- C2: a handle matching none of the capability markers makes every one of
the four extraction operations return the explicit unsupported-type error
(never an empty result, never silence). -/
theorem unsupported_raises (w : World)
    (h1 : w.doc.mupdf = none) (h2 : w.doc.pages = none) (h3 : w.doc.paragraphs = none)
    (h4 : w.doc.inline_shapes = none) (h5 : w.doc.tables = none) (h6 : w.doc.slides = none) :
    extract_text w = .error "Unsupported file type for text extraction" ∧
    extract_links w = .error "Unsupported file type for link extraction" ∧
    extract_images w = .error "Unsupported file type for image extraction" ∧
    extract_tables w = .error "Unsupported file type for table extraction" := by
  refine ⟨?_, ?_, ?_, ?_⟩ <;>
    simp [extract_text, extract_links, extract_images, extract_tables,
      h1, h2, h3, h4, h5, h6]

/-- Witness for C2 at the concrete marker-free handle. -/
theorem unsupported_raises_witness :
    extract_text emptyWorld = .error "Unsupported file type for text extraction" ∧
    extract_links emptyWorld = .error "Unsupported file type for link extraction" ∧
    extract_images emptyWorld = .error "Unsupported file type for image extraction" ∧
    extract_tables emptyWorld = .error "Unsupported file type for table extraction" :=
  unsupported_raises emptyWorld rfl rfl rfl rfl rfl rfl

/-! ### C10: the alternate page-stream image branch -/

/-- C10: a handle with the page-collection marker but no page-count-like
marker makes image extraction return the empty list, whatever the document
holds. -/
theorem pages_images_empty (w : World) (dps : List DocPage)
    (h1 : w.doc.mupdf = none) (h2 : w.doc.pages = some dps) :
    extract_images w = .ok (.pages []) := by
  simp [extract_images, h1, h2]

/-- Page whose raw extraction returns the text "x". -/
def pageX : DocPage := { extractTextAttr := some (Except.ok "x") }

/-- World exposing only the page-collection marker, with one page. -/
def pagesOnlyWorld : World :=
  { doc := { emptyDoc with pages := some [pageX] }, fitz := true, plumber := none }

/-- Witness for C10: a pages-backend world with a non-trivial page still
yields no images. -/
theorem pages_images_empty_witness :
    extract_images pagesOnlyWorld = .ok (.pages []) :=
  pages_images_empty pagesOnlyWorld [pageX] rfl rfl

/-! ### C1: the dispatch order of the four operations -/

/-- C1 counterexample: `c1World` exposes the page-count-like marker, which
the claim places first for every operation, yet `extract_tables` routes to
the flow-document strategy because it probes the table-collection marker
first; its output is the flow output and differs from the page-stream
strategy's output on the same world. -/
theorem dispatch_order_counterexample :
    extract_tables c1World = .ok (.flow (flowTablesBody [table0])) ∧
    extract_tables c1World ≠ .ok (.pdf (pdfTablesBody c1World.plumber)) := by
  constructor
  · rfl
  · decide

/-- C1 as amended: text and link extraction probe page-count (guarded by the
fitz import), then pages, then paragraphs, then slides; image extraction
probes page-count, pages, inline-shapes, then slides; table extraction
probes tables first, then slides, then page-count (unguarded, with no pages
tier); within each operation the first matching marker wins. -/
theorem dispatch_order_amended (w : World) :
    (∀ m, w.fitz = true → w.doc.mupdf = some m →
      extract_text w = .ok (.mupdf (mupdfTextBody m)) ∧
      extract_links w = .ok (.mupdf (mupdfLinksBody m)) ∧
      extract_images w = .ok (.mupdf (mupdfImagesBody m))) ∧
    (∀ dps, (w.fitz = false ∨ w.doc.mupdf = none) → w.doc.pages = some dps →
      extract_text w = .ok (.pages (pagesTextBody w.plumber dps)) ∧
      extract_links w = .ok (.pages (pagesLinksBody w.plumber dps)) ∧
      extract_images w = .ok (.pages [])) ∧
    (∀ ps, (w.fitz = false ∨ w.doc.mupdf = none) → w.doc.pages = none →
        w.doc.paragraphs = some ps →
      extract_text w = .ok (.flow (flowTextBody ps)) ∧
      extract_links w = .ok (.flow (flowLinksBody ps))) ∧
    (∀ shs, (w.fitz = false ∨ w.doc.mupdf = none) → w.doc.pages = none →
        w.doc.inline_shapes = some shs →
      extract_images w = .ok (.flow (flowImagesBody w.doc shs))) ∧
    (∀ ss, (w.fitz = false ∨ w.doc.mupdf = none) → w.doc.pages = none →
        w.doc.paragraphs = none → w.doc.inline_shapes = none → w.doc.slides = some ss →
      extract_text w = .ok (.slides (slidesTextBody ss)) ∧
      extract_links w = .ok (.slides (pptLinksBody ss)) ∧
      extract_images w = .ok (.slides (slidesImagesBody ss))) ∧
    (∀ ts, w.doc.tables = some ts →
      extract_tables w = .ok (.flow (flowTablesBody ts))) ∧
    (∀ ss, w.doc.tables = none → w.doc.slides = some ss →
      extract_tables w = .ok (.slides (pptTablesBody ss))) ∧
    (∀ m, w.doc.tables = none → w.doc.slides = none → w.doc.mupdf = some m →
      extract_tables w = .ok (.pdf (pdfTablesBody w.plumber))) := by
  refine ⟨?_, ?_, ?_, ?_, ?_, ?_, ?_, ?_⟩
  · intro m hf hm
    refine ⟨?_, ?_, ?_⟩ <;> simp [extract_text, extract_links, extract_images, hf, hm]
  · intro dps hmiss hp
    have hmu : (if w.fitz then w.doc.mupdf else none) = none := by
      rcases hmiss with hf | hm
      · simp [hf]
      · simp [hm]
    refine ⟨?_, ?_, ?_⟩ <;>
      simp [extract_text, extract_links, extract_images, hmu, hp]
  · intro ps hmiss hp hpar
    have hmu : (if w.fitz then w.doc.mupdf else none) = none := by
      rcases hmiss with hf | hm
      · simp [hf]
      · simp [hm]
    refine ⟨?_, ?_⟩ <;>
      simp [extract_text, extract_links, hmu, hp, hpar]
  · intro shs hmiss hp hin
    have hmu : (if w.fitz then w.doc.mupdf else none) = none := by
      rcases hmiss with hf | hm
      · simp [hf]
      · simp [hm]
    simp [extract_images, hmu, hp, hin]
  · intro ss hmiss hp hpar hin hs
    have hmu : (if w.fitz then w.doc.mupdf else none) = none := by
      rcases hmiss with hf | hm
      · simp [hf]
      · simp [hm]
    refine ⟨?_, ?_, ?_⟩ <;>
      simp [extract_text, extract_links, extract_images, hmu, hp, hpar, hin, hs]
  · intro ts ht
    simp [extract_tables, ht]
  · intro ss ht hs
    simp [extract_tables, ht, hs]
  · intro m ht hs hm
    simp [extract_tables, ht, hs, hm]

/-- World exposing only the slide-collection marker, with no slides. -/
def slidesOnlyWorld : World :=
  { doc := { emptyDoc with slides := some [] }, fitz := true, plumber := none }

/-- Witness for the amended C1, instantiating the tables-first tier and the
slides tier at concrete worlds. -/
theorem dispatch_order_amended_witness :
    extract_tables c1World = .ok (.flow (flowTablesBody [table0])) ∧
    extract_text slidesOnlyWorld = .ok (.slides (slidesTextBody [])) :=
  ⟨(dispatch_order_amended c1World).2.2.2.2.2.1 [table0] rfl,
    ((dispatch_order_amended slidesOnlyWorld).2.2.2.2.1 [] (Or.inr rfl) rfl rfl rfl rfl).1⟩

/-! ### C3: flow-document run defaults -/

/-- Font object with every attribute unset (all values Python `None`). -/
def fontUnset : DocxFont :=
  { name := none, size := none, bold := none, italic := none, underline := none,
    color := none, highlight_color := none }

/-- Run carrying a font object whose name is unset. -/
def runUnsetName : DocxRun :=
  { text := "x", font := some fontUnset, bold := none, italic := none, underline := none }

/-- Run with no font object at all. -/
def runNoFont : DocxRun :=
  { text := "x", font := none, bold := none, italic := none, underline := none }

/-- Paragraph holding `runUnsetName`. -/
def paraUnsetName : DocxPara :=
  { text := "x", style := none, alignment := none, runs := some [runUnsetName] }

/-- World exposing only the paragraph-collection marker, with
`paraUnsetName`. -/
def flowUnsetWorld : World :=
  { doc := { emptyDoc with paragraphs := some [paraUnsetName] }, fitz := true, plumber := none }

/-- Run record that `extract_text` actually emits for `runUnsetName`: note
the null font. -/
def runUnsetNameOut : FlowRunRec :=
  { text := "x", font := none, size := 11, bold := false, italic := false,
    underline := false, color := some "000000", highlight := none }

/-- Paragraph record that `extract_text` actually emits for
`paraUnsetName`. -/
def paraUnsetNameOut : FlowParaRec :=
  { text := "x", style := none, alignment := none, runs := [runUnsetNameOut] }

/-- C3 counterexample: a run whose font object is present but whose font name
is absent is emitted with a null font, not with the fixed placeholder the
claim requires; shown through the full text-extraction pipeline. -/
theorem flow_run_defaults_counterexample :
    runUnsetName.font = some fontUnset ∧ fontUnset.name = none ∧
    extract_text flowUnsetWorld = .ok (.flow [paraUnsetNameOut]) ∧
    runUnsetNameOut.font = none ∧
    (flowRunRec runUnsetName).font ≠ some "DefaultFont" := by
  refine ⟨rfl, rfl, ?_, rfl, by decide⟩
  rfl

/-- C3 as amended: flow text extraction emits one record per paragraph with
text, style, alignment and one entry per run; the font-name and color
placeholders are substituted only when the run's font object itself is absent
(a present font passes its possibly-null name through, a present color object
passes its possibly-null rgb through); the size defaults to 11 whenever the
font object is absent, or its size is absent or zero; bold, italic and
underline default to false when the run-level flags are unset. -/
theorem flow_run_defaults_amended (ps : List DocxPara) :
    flowTextBody ps = ps.map flowParaRec ∧
    (∀ p : DocxPara, (flowParaRec p).style = p.style ∧
      (flowParaRec p).alignment = p.alignment ∧
      (flowParaRec p).runs = (p.runs.getD []).map flowRunRec) ∧
    (∀ r : DocxRun,
      (flowRunRec r).text = r.text ∧
      (flowRunRec r).bold = r.bold.getD false ∧
      (flowRunRec r).italic = r.italic.getD false ∧
      (flowRunRec r).underline = r.underline.getD false ∧
      (r.font = none → (flowRunRec r).font = some "DefaultFont" ∧
        (flowRunRec r).size = 11 ∧ (flowRunRec r).color = some "000000" ∧
        (flowRunRec r).highlight = none) ∧
      (∀ f, r.font = some f → (flowRunRec r).font = f.name ∧
        (flowRunRec r).highlight = f.highlight_color ∧
        ((f.size = none ∨ f.size = some 0) → (flowRunRec r).size = 11) ∧
        (∀ v, f.size = some v → v ≠ 0 → (flowRunRec r).size = v) ∧
        (f.color = none → (flowRunRec r).color = some "000000") ∧
        (∀ c, f.color = some c → (flowRunRec r).color = c.rgb))) := by
  refine ⟨rfl, fun p => ⟨rfl, rfl, rfl⟩, fun r => ⟨rfl, rfl, rfl, rfl, ?_, ?_⟩⟩
  · intro h
    simp [flowRunRec, h]
  · intro f h
    refine ⟨by simp [flowRunRec, h], by simp [flowRunRec, h], ?_, ?_, ?_, ?_⟩
    · rintro (hs | hs) <;> simp [flowRunRec, h, hs]
    · intro v hv hvz
      simp [flowRunRec, h, hv, hvz]
    · intro hc
      simp [flowRunRec, h, hc]
    · intro c hc
      simp [flowRunRec, h, hc]

/-- Witness for the amended C3 at concrete runs with and without a font
object. -/
theorem flow_run_defaults_amended_witness :
    (flowRunRec runNoFont).font = some "DefaultFont" ∧
    (flowRunRec runNoFont).size = 11 ∧
    (flowRunRec runUnsetName).font = none ∧
    (flowRunRec runUnsetName).size = 11 :=
  ⟨(((flow_run_defaults_amended []).2.2 runNoFont).2.2.2.2.1 rfl).1,
    (((flow_run_defaults_amended []).2.2 runNoFont).2.2.2.2.1 rfl).2.1,
    (((flow_run_defaults_amended []).2.2 runUnsetName).2.2.2.2.2 fontUnset rfl).1,
    (((flow_run_defaults_amended []).2.2 runUnsetName).2.2.2.2.2 fontUnset rfl).2.2.1
      (Or.inl rfl)⟩

/-! ### C4: slide-deck runs versus flow-document runs -/

/-- C4 counterexample: on the same run with no font object, the flow
extractor defaults size to 11 and color to the placeholder, while the
slide-deck extractor emits null size and color (and the slide record has no
highlight field at all) — the two per-run extractors are not extensionally
equal. -/
theorem run_extractors_counterexample :
    (flowRunRec runNoFont).size = 11 ∧ (pptRunRec runNoFont).size = none ∧
    (flowRunRec runNoFont).color = some "000000" ∧ (pptRunRec runNoFont).color = none := by
  refine ⟨rfl, rfl, rfl, rfl⟩

/-- C4 as amended: the two per-run extractors agree on the text field
unconditionally, and they agree on font name, size, bold, italic, underline
and color for a fully specified run — one whose font object is present with a
non-empty name, a non-zero size, an rgb color, and whose run-level and
font-level flags coincide; they differ in the defaults for absent attributes
(null versus 11 / "000000" / placeholder conditions) and the slide record
carries no highlight field. -/
theorem run_extractors_amended (r : DocxRun) :
    (pptRunRec r).text = (flowRunRec r).text ∧
    (∀ f n v c rgb b i u, r.font = some f →
      f.name = some n → n ≠ "" →
      f.size = some v → v ≠ 0 →
      f.color = some c → c.rgb = some rgb →
      r.bold = some b → f.bold = some b →
      r.italic = some i → f.italic = some i →
      r.underline = some u → f.underline = some u →
      (pptRunRec r).font = (flowRunRec r).font ∧
      (pptRunRec r).size = some ((flowRunRec r).size) ∧
      (pptRunRec r).bold = (flowRunRec r).bold ∧
      (pptRunRec r).italic = (flowRunRec r).italic ∧
      (pptRunRec r).underline = (flowRunRec r).underline ∧
      (pptRunRec r).color = (flowRunRec r).color) := by
  refine ⟨rfl, ?_⟩
  intro f n v c rgb b i u hf hn hne hv hvz hc hrgb hb hfb hi hfi hu hfu
  refine ⟨?_, ?_, ?_, ?_, ?_, ?_⟩ <;>
    simp [pptRunRec, flowRunRec, hf, hn, hne, hv, hvz, hc, hrgb, hb, hfb, hi, hfi, hu, hfu]

/-- Color object used by the C4 witness. -/
def colorFull : DocxColor := { rgb := some "FF0000" }

/-- Fully specified font used by the C4 witness. -/
def fontFull : DocxFont :=
  { name := some "Arial", size := some 12, bold := some true, italic := some false,
    underline := some false, color := some colorFull, highlight_color := none }

/-- Fully specified run used by the C4 witness. -/
def runFull : DocxRun :=
  { text := "t", font := some fontFull, bold := some true, italic := some false,
    underline := some false }

/-- Witness for the amended C4 at the fully specified run. -/
theorem run_extractors_amended_witness :
    (pptRunRec runFull).text = (flowRunRec runFull).text ∧
    (pptRunRec runFull).font = (flowRunRec runFull).font ∧
    (pptRunRec runFull).size = some ((flowRunRec runFull).size) ∧
    (pptRunRec runFull).color = (flowRunRec runFull).color :=
  ⟨(run_extractors_amended runFull).1,
    ((run_extractors_amended runFull).2 fontFull "Arial" 12 colorFull "FF0000" true false false
      rfl rfl (by decide) rfl (by decide) rfl rfl rfl rfl rfl rfl rfl rfl).1,
    ((run_extractors_amended runFull).2 fontFull "Arial" 12 colorFull "FF0000" true false false
      rfl rfl (by decide) rfl (by decide) rfl rfl rfl rfl rfl rfl rfl rfl).2.1,
    ((run_extractors_amended runFull).2 fontFull "Arial" 12 colorFull "FF0000" true false false
      rfl rfl (by decide) rfl (by decide) rfl rfl rfl rfl rfl rfl rfl rfl).2.2.2.2.2⟩

/-! ### C5: the shape-tree flattener -/

/-- Binary image part used by the C5 counterexample. -/
def part1 : PImagePart := { blob := [1, 2, 3], ext := some "png" }

/-- Data of a picture shape whose markup also carries an embedded-image
reference resolvable through its part. -/
def cxPicData : PptShapeData :=
  { shape_id := some 5, left := none, top := none, width := none, height := none,
    shape_type := some .picture, text_frame := none, textAttr := none,
    click_action := none, accessRaises := false, has_table := false, tableAttr := none,
    image := some { blob := [9], ext := "png", width := 10, height := 20 }, fill := none,
    blips := [some "rId1"], part := { related_parts := some [("rId1", part1)] } }

/-- The picture shape itself (no child collection). -/
def cxPic : PptShape := .mk cxPicData none

/-- Record the picture branch emits for `cxPic`. -/
def cxPicOut1 : PptImageRec :=
  { slide := 1, image_id := some 5, blob := "CQ==", format := "png",
    width := some 10, height := some 20 }

/-- Record the raw-markup fallback additionally emits for `cxPic`. -/
def cxPicOut2 : PptImageRec :=
  { slide := 1, image_id := some 5, blob := "AQID", format := "png",
    width := none, height := none }

/-- C5 counterexample: the flattener runs the raw-markup fallback for a shape
that is a picture, so this picture yields two records — the picture record
and an extra fallback record with null width and height — refuting both "it
yields one record" and "the fallback runs only for shapes that are neither
groups nor pictures". -/
theorem flattener_counterexample :
    cxPic.data.shape_type = some MsoShapeType.picture ∧
    flattenPptShape 1 cxPic = [.shape cxPicOut1, .shape cxPicOut2] ∧
    cxPicOut2.width = none ∧ cxPicOut2.height = none := by
  refine ⟨rfl, ?_, rfl, rfl⟩
  rfl

/-- Picture record with slide index, shape id, encoded payload, format,
width and height, as the picture branch of the flattener emits it. -/
def pictureRecOf (idx sid : Nat) (img : PImage) : PptImageRec :=
  { slide := idx, image_id := some sid, blob := b64encode img.blob,
    format := img.ext, width := some img.width, height := some img.height }

/-- C5 as amended: a picture shape (or picture-filled shape) yields the
picture record with slide index, shape id, encoded payload, format, width and
height; a group shape — non-picture type, non-picture fill, child collection
present — yields exactly the concatenation of its children's results, with
the picture checks and the fallback contributing nothing; but the raw-markup
fallback runs for every shape without a child collection, pictures included,
and every record it yields has null width and height. -/
theorem flattener_amended (idx : Nat) :
    (∀ d img sid, d.shape_type = some MsoShapeType.picture → d.image = some img →
      d.shape_id = some sid →
      picturePass idx d = [PptImagesItem.shape (pictureRecOf idx sid img)]) ∧
    (∀ d cs, d.shape_type ≠ some MsoShapeType.picture →
      (∀ fl, d.fill = some fl → fl.ftype ≠ some 6) →
      flattenPptShape idx (.mk d (some cs)) = flattenPptShapes idx cs) ∧
    (∀ d cs, flattenPptShape idx (.mk d (some cs)) =
      picturePass idx d ++ flattenPptShapes idx cs) ∧
    (∀ d, flattenPptShape idx (.mk d none) = picturePass idx d ++ markupFallback idx d) ∧
    (∀ d r, PptImagesItem.shape r ∈ markupFallback idx d →
      r.width = none ∧ r.height = none) := by
  refine ⟨?_, ?_, ?_, ?_, ?_⟩
  · intro d img sid ht hi hs
    simp [picturePass, pictureRecOf, ht, hi, hs]
  · intro d cs ht hfl
    have hpp : picturePass idx d = [] := by
      unfold picturePass
      rw [if_neg ht]
      match hfill : d.fill with
      | none => simp
      | some fl =>
        have := hfl fl hfill
        simp [this]
    simp [flattenPptShape, hpp]
  · intro d cs
    simp [flattenPptShape]
  · intro d
    simp [flattenPptShape]
  · intro d r hr
    unfold markupFallback at hr
    repeat' split at hr
    all_goals simp_all

/-- Group shape holding `cxPic`, used by the C5 witness. -/
def cxGroupData : PptShapeData :=
  { shape_id := some 7, left := none, top := none, width := none, height := none,
    shape_type := some .group, text_frame := none, textAttr := none,
    click_action := none, accessRaises := false, has_table := false, tableAttr := none,
    image := none, fill := none, blips := [], part := { related_parts := none } }

/-- Witness for the amended C5: the group forwards exactly its children's
records, and the fallback record of `cxPic` has null dimensions. -/
theorem flattener_amended_witness :
    flattenPptShape 1 (.mk cxGroupData (some [cxPic])) = flattenPptShapes 1 [cxPic] ∧
    picturePass 1 cxPicData = [.shape cxPicOut1] ∧
    cxPicOut2.width = none ∧ cxPicOut2.height = none :=
  ⟨(flattener_amended 1).2.1 cxGroupData [cxPic] (by decide) (by intro fl h; cases h),
    (flattener_amended 1).1 cxPicData _ 5 rfl rfl rfl,
    ((flattener_amended 1).2.2.2.2 cxPicData cxPicOut2 (by decide)).1,
    ((flattener_amended 1).2.2.2.2 cxPicData cxPicOut2 (by decide)).2⟩

/-! ### C8: table grid invariants -/

/-- Width of the first row as the specification words it: the length of the
first row for a non-empty grid, 0 for an empty grid. -/
def firstRowWidth {α : Type} (data : List (List α)) : Nat :=
  match data with
  | [] => 0
  | r0 :: _ => r0.length

theorem tableColumns_eq_firstRowWidth {α : Type} (data : List (List α)) :
    tableColumns data = firstRowWidth data := by
  match data with
  | [] => rfl
  | [] :: _ => rfl
  | (c :: r0) :: _ => rfl

theorem sndMemOfMemEnum {α : Type} {l : List α} {pr : Nat × α} (h : pr ∈ l.enum) :
    pr.2 ∈ l := by
  obtain ⟨i, x⟩ := pr
  have := List.mem_enum h
  simp only [this.2]
  exact List.getElem_mem this.1

theorem pptTablesShapes_grid (i counter : Nat) (shs : List PptShape) :
    ∀ rec ∈ (pptTablesShapes i counter shs).1,
      rec.columns = firstRowWidth rec.data ∧ rec.rows = rec.data.length ∧
      ∃ grid : List (List String), rec.data = grid.map (fun row => row.map pyStrip) ∧
        rec.data.map List.length = grid.map List.length := by
  induction shs generalizing counter with
  | nil => intro rec h; simp [pptTablesShapes] at h
  | cons sh rest ih =>
    intro rec h
    simp only [pptTablesShapes] at h
    split at h
    · exact ih counter rec h
    · split at h
      · split at h
        · split at h
          · exact ih counter rec h
          · simp only [List.mem_cons] at h
            rcases h with h | h
            · subst h
              refine ⟨tableColumns_eq_firstRowWidth _, rfl, _, rfl, ?_⟩
              simp
            · exact ih _ rec h
        · exact ih counter rec h
      · exact ih counter rec h

theorem pptTablesSlides_grid (ss : List PptSlide) (i counter : Nat) :
    ∀ rec ∈ pptTablesSlides ss i counter,
      rec.columns = firstRowWidth rec.data ∧ rec.rows = rec.data.length ∧
      ∃ grid : List (List String), rec.data = grid.map (fun row => row.map pyStrip) ∧
        rec.data.map List.length = grid.map List.length := by
  induction ss generalizing i counter with
  | nil => intro rec h; simp [pptTablesSlides] at h
  | cons sl rest ih =>
    intro rec h
    unfold pptTablesSlides at h
    rw [List.mem_append] at h
    rcases h with h | h
    · exact pptTablesShapes_grid i counter sl.shapes rec h
    · exact ih _ _ rec h

theorem plumbTablesGo_grid (pps : List PlumbPage) (i : Nat) :
    ∀ r, PdfTablesItem.table r ∈ (plumbTablesGo pps i).1 →
      r.columns = firstRowWidth r.data ∧ r.rows = r.data.length := by
  induction pps generalizing i with
  | nil => intro r h; simp [plumbTablesGo] at h
  | cons p rest ih =>
    intro r h
    unfold plumbTablesGo at h
    split at h
    · simp at h
    · rw [List.mem_append] at h
      rcases h with h | h
      · split at h
        · split at h
          · simp at h
          · simp only [List.mem_singleton] at h
            cases h
            exact ⟨tableColumns_eq_firstRowWidth _, rfl⟩
        · simp at h
      · exact ih _ r h

/-- C8: every table record, in every variant, reports `columns` as the width
of the grid's first row (0 for an empty grid), `rows` as the number of grid
rows, and carries the grid with its ragged row lengths preserved (cell texts
are stripped in the flow and slide variants, and passed through unchanged in
the page-stream variant). -/
theorem table_grid_invariants :
    (∀ (ts : List DocxTable), ∀ rec ∈ flowTablesBody ts,
      rec.columns = firstRowWidth rec.data ∧ rec.rows = rec.data.length ∧
      ∃ t ∈ ts, rec.data = t.grid.map (fun row => row.map pyStrip) ∧
        rec.data.map List.length = t.grid.map List.length) ∧
    (∀ (ss : List PptSlide), ∀ rec ∈ pptTablesBody ss,
      rec.columns = firstRowWidth rec.data ∧ rec.rows = rec.data.length ∧
      ∃ grid : List (List String), rec.data = grid.map (fun row => row.map pyStrip) ∧
        rec.data.map List.length = grid.map List.length) ∧
    (∀ (plumber : Option PlumberFile) r, PdfTablesItem.table r ∈ pdfTablesBody plumber →
      r.columns = firstRowWidth r.data ∧ r.rows = r.data.length) := by
  refine ⟨?_, ?_, ?_⟩
  · intro ts rec h
    unfold flowTablesBody at h
    rw [List.mem_map] at h
    obtain ⟨pr, hpr, hrec⟩ := h
    subst hrec
    refine ⟨tableColumns_eq_firstRowWidth _, rfl, pr.2, sndMemOfMemEnum hpr, rfl, ?_⟩
    simp
  · intro ss rec h
    exact pptTablesSlides_grid ss 0 1 rec h
  · intro plumber r h
    simp only [pdfTablesBody] at h
    split at h
    · simp at h
    · split at h
      · simp at h
      · split at h
        · rw [List.mem_append] at h
          rcases h with h | h
          · exact plumbTablesGo_grid _ _ r h
          · simp at h
        · split at h
          · simp at h
          · exact plumbTablesGo_grid _ _ r h

/-- Witness for C8 at a concrete ragged flow table. -/
theorem table_grid_invariants_witness :
    (flowTablesBody [table0]).length = 1 ∧
    ∀ rec ∈ flowTablesBody [table0],
      rec.columns = firstRowWidth rec.data ∧ rec.rows = rec.data.length :=
  ⟨rfl, fun rec h =>
    ⟨((table_grid_invariants.1 [table0] rec h)).1, ((table_grid_invariants.1 [table0] rec h)).2.1⟩⟩

/-! ### C6: link de-duplication -/

theorem muLinksLinks_spec (i : Nat) (ls : List MuLinkD) (seen : List (Nat × String)) :
    (∀ r ∈ (muLinksLinks i ls seen).1, r.page = i + 1 ∧ (i, r.uri) ∉ seen) ∧
    List.Pairwise (fun a b => a.uri ≠ b.uri) (muLinksLinks i ls seen).1 := by
  induction ls generalizing seen with
  | nil => simp [muLinksLinks]
  | cons l rest ih =>
    by_cases h0 : l.uri.getD "" = ""
    · have heq : muLinksLinks i (l :: rest) seen = muLinksLinks i rest seen := by
        simp [muLinksLinks, h0]
      rw [heq]
      exact ih seen
    · by_cases h1 : (i, l.uri.getD "") ∈ seen
      · have heq : muLinksLinks i (l :: rest) seen = muLinksLinks i rest seen := by
          simp [muLinksLinks, h0, h1]
        rw [heq]
        exact ih seen
      · have heq : (muLinksLinks i (l :: rest) seen).1 =
            ({ page := i + 1, uri := l.uri.getD "", rect := l.fromRect.getD [],
               kind := l.kind } : MuLinkRec)
              :: (muLinksLinks i rest ((i, l.uri.getD "") :: seen)).1 := by
          simp [muLinksLinks, h0, h1]
        rw [heq]
        obtain ⟨ihA, ihB⟩ := ih ((i, l.uri.getD "") :: seen)
        constructor
        · intro r hr
          rcases List.mem_cons.mp hr with h | h
          · subst h
            exact ⟨rfl, h1⟩
          · obtain ⟨hp, hn⟩ := ihA r h
            exact ⟨hp, fun hm => hn (List.mem_cons_of_mem _ hm)⟩
        · refine List.Pairwise.cons ?_ ihB
          intro b hb hequri
          obtain ⟨hp, hn⟩ := ihA b hb
          apply hn
          rw [← hequri]
          exact List.mem_cons_self _ _

theorem muLinksPages_spec (ps : List MuPage) (i : Nat) (seen : List (Nat × String)) :
    (∀ r ∈ muLinksPages ps i seen, i + 1 ≤ r.page) ∧
    List.Pairwise (fun a b => ¬(a.page = b.page ∧ a.uri = b.uri)) (muLinksPages ps i seen) := by
  induction ps generalizing i seen with
  | nil => simp [muLinksPages]
  | cons pg rest ih =>
    have hstep : muLinksPages (pg :: rest) i seen =
        (muLinksLinks i pg.links seen).1
          ++ muLinksPages rest (i + 1) (muLinksLinks i pg.links seen).2 := rfl
    rw [hstep]
    obtain ⟨hA, hB⟩ := muLinksLinks_spec i pg.links seen
    obtain ⟨ihA, ihB⟩ := ih (i + 1) (muLinksLinks i pg.links seen).2
    constructor
    · intro r hr
      rcases List.mem_append.mp hr with h | h
      · exact le_of_eq ((hA r h).1).symm
      · exact Nat.le_of_succ_le (ihA r h)
    · rw [List.pairwise_append]
      refine ⟨List.Pairwise.imp ?_ hB, ihB, ?_⟩
      · intro a b hab hpu
        exact hab hpu.2
      · rintro a ha b hb ⟨hp, _⟩
        have h1 : a.page = i + 1 := (hA a ha).1
        have h2 : i + 2 ≤ b.page := ihA b hb
        omega

theorem pptLinksShapes_spec (i : Nat) (shs : List PptShape) (seen : List (String × String)) :
    (∀ r ∈ (pptLinksShapes i shs seen).1, r.slide = i + 1 ∧ (r.url, r.text) ∉ seen) ∧
    List.Pairwise (fun a b => ¬(a.url = b.url ∧ a.text = b.text))
      (pptLinksShapes i shs seen).1 := by
  induction shs generalizing seen with
  | nil => simp [pptLinksShapes]
  | cons sh rest ih =>
    obtain ⟨d, ch⟩ := sh
    by_cases hra : d.accessRaises
    · have heq : pptLinksShapes i (PptShape.mk d ch :: rest) seen =
          pptLinksShapes i rest seen := by
        simp [pptLinksShapes, PptShape.data, hra]
      rw [heq]
      exact ih seen
    · match hca : d.click_action with
      | none =>
        have heq : pptLinksShapes i (PptShape.mk d ch :: rest) seen =
            pptLinksShapes i rest seen := by
          simp [pptLinksShapes, PptShape.data, hra, hca]
        rw [heq]
        exact ih seen
      | some none =>
        have heq : pptLinksShapes i (PptShape.mk d ch :: rest) seen =
            pptLinksShapes i rest seen := by
          simp [pptLinksShapes, PptShape.data, hra, hca]
        rw [heq]
        exact ih seen
      | some (some hl) =>
        by_cases hcond : pyStrip hl ≠ "" ∧
            (pyStrip hl, match d.textAttr with
              | some t => if t = "" then "" else pyStrip t
              | none => "") ∉ seen
        · have heq : (pptLinksShapes i (PptShape.mk d ch :: rest) seen).1 =
              ({ slide := i + 1,
                 text := match d.textAttr with
                   | some t => if t = "" then "" else pyStrip t
                   | none => "",
                 url := pyStrip hl } : PptLinkRec)
                :: (pptLinksShapes i rest
                    ((pyStrip hl, match d.textAttr with
                      | some t => if t = "" then "" else pyStrip t
                      | none => "") :: seen)).1 := by
            simp [pptLinksShapes, PptShape.data, hra, hca, hcond]
          rw [heq]
          obtain ⟨ihA, ihB⟩ := ih ((pyStrip hl, match d.textAttr with
            | some t => if t = "" then "" else pyStrip t
            | none => "") :: seen)
          constructor
          · intro r hr
            rcases List.mem_cons.mp hr with h | h
            · subst h
              exact ⟨rfl, hcond.2⟩
            · obtain ⟨hp, hn⟩ := ihA r h
              exact ⟨hp, fun hm => hn (List.mem_cons_of_mem _ hm)⟩
          · refine List.Pairwise.cons ?_ ihB
            rintro b hb ⟨hu, ht⟩
            obtain ⟨hp, hn⟩ := ihA b hb
            apply hn
            rw [← hu, ← ht]
            exact List.mem_cons_self _ _
        · have heq : pptLinksShapes i (PptShape.mk d ch :: rest) seen =
              pptLinksShapes i rest seen := by
            simp only [pptLinksShapes, PptShape.data]
            rw [if_neg hra, hca]
            dsimp only
            rw [if_neg hcond]
          rw [heq]
          exact ih seen

theorem pptLinksSlides_spec (ss : List PptSlide) (i : Nat) (seen : List (String × String)) :
    (∀ r ∈ pptLinksSlides ss i seen, i + 1 ≤ r.slide) ∧
    List.Pairwise (fun a b => ¬(a.slide = b.slide ∧ a.url = b.url ∧ a.text = b.text))
      (pptLinksSlides ss i seen) := by
  induction ss generalizing i seen with
  | nil => simp [pptLinksSlides]
  | cons sl rest ih =>
    have hstep : pptLinksSlides (sl :: rest) i seen =
        (pptLinksShapes i sl.shapes seen).1
          ++ pptLinksSlides rest (i + 1) (pptLinksShapes i sl.shapes seen).2 := rfl
    rw [hstep]
    obtain ⟨hA, hB⟩ := pptLinksShapes_spec i sl.shapes seen
    obtain ⟨ihA, ihB⟩ := ih (i + 1) (pptLinksShapes i sl.shapes seen).2
    constructor
    · intro r hr
      rcases List.mem_append.mp hr with h | h
      · exact le_of_eq ((hA r h).1).symm
      · exact Nat.le_of_succ_le (ihA r h)
    · rw [List.pairwise_append]
      refine ⟨List.Pairwise.imp ?_ hB, ihB, ?_⟩
      · intro a b hab h3
        exact hab ⟨h3.2.1, h3.2.2⟩
      · rintro a ha b hb ⟨hs, _⟩
        have h1 : a.slide = i + 1 := (hA a ha).1
        have h2 : i + 2 ≤ b.slide := ihA b hb
        omega

/-- C6 as amended: on the primary (page-count) backend, link extraction never
returns two records with identical (page, URI); on a slide deck it never
returns two records with identical (URL, text) within the same slide (the
suppression set is in fact shared across slides); the alternate
page-collection backend, however, may return duplicate (page, URI) records. -/
theorem link_dedup_amended (m : MuDoc) (ss : List PptSlide) :
    List.Pairwise (fun a b => ¬(a.page = b.page ∧ a.uri = b.uri)) (mupdfLinksBody m) ∧
    List.Pairwise (fun a b => ¬(a.slide = b.slide ∧ a.url = b.url ∧ a.text = b.text))
      (pptLinksBody ss) :=
  ⟨(muLinksPages_spec m.pages 0 []).2, (pptLinksSlides_spec ss 0 []).2⟩

/-- Page whose raw text holds the same URL twice. -/
def dupPage : DocPage := { extractTextAttr := some (Except.ok "http://a http://a") }

/-- World dispatching to the alternate page-stream backend with `dupPage`. -/
def dupWorld : World :=
  { doc := { emptyDoc with pages := some [dupPage] }, fitz := true, plumber := none }

/-- The duplicated link record. -/
def dupRec : PageLinkRec := { page := 1, uri := "http://a", contents := "" }

/-- C6 counterexample: on a page-stream document served by the alternate
(page-collection) backend, link extraction returns the same (page, URI)
record twice — the claimed invariant fails for this page-stream input. -/
theorem link_dedup_counterexample :
    extract_links dupWorld = .ok (.pages [dupRec, dupRec]) := by
  rfl

/-! ### C7: slide-deck text extraction -/

theorem dedupFoldlSpec (ps : List PptParaRec) (acc : List PptParaRec) (seen : List String) :
    (ps.foldl dedupStep (acc, seen)).1 = acc ++ firstOccurSpec ps seen := by
  induction ps generalizing acc seen with
  | nil => simp [firstOccurSpec]
  | cons p rest ih =>
    by_cases h : p.text ∈ seen
    · have h1 : dedupStep (acc, seen) p = (acc, seen) := by simp [dedupStep, h]
      rw [List.foldl_cons, h1]
      simp [firstOccurSpec, h, ih]
    · have h1 : dedupStep (acc, seen) p = (acc ++ [p], seen ++ [p.text]) := by
        simp [dedupStep, h]
      rw [List.foldl_cons, h1, ih]
      simp [firstOccurSpec, h]

theorem dedupParas_eq_firstOccur (ps : List PptParaRec) :
    dedupParas ps = firstOccurSpec ps [] := by
  simpa using dedupFoldlSpec ps [] []

theorem firstOccur_text_notMem (ps : List PptParaRec) (seen : List String) :
    ∀ q ∈ firstOccurSpec ps seen, q.text ∉ seen := by
  induction ps generalizing seen with
  | nil => simp [firstOccurSpec]
  | cons p rest ih =>
    intro q hq
    unfold firstOccurSpec at hq
    split at hq
    · exact ih seen q hq
    · rcases List.mem_cons.mp hq with h | h
      · subst h
        assumption
      · intro hmem
        exact ih (seen ++ [p.text]) q h (List.mem_append_left _ hmem)

theorem firstOccur_pairwise (ps : List PptParaRec) (seen : List String) :
    List.Pairwise (fun a b => a.text ≠ b.text) (firstOccurSpec ps seen) := by
  induction ps generalizing seen with
  | nil => simp [firstOccurSpec]
  | cons p rest ih =>
    unfold firstOccurSpec
    split
    · exact ih seen
    · refine List.Pairwise.cons ?_ (ih (seen ++ [p.text]))
      intro b hb heq
      exact firstOccur_text_notMem rest (seen ++ [p.text]) b hb
        (by rw [← heq]; exact List.mem_append_right _ (List.mem_singleton_self _))

theorem firstOccur_mem_source (ps : List PptParaRec) (seen : List String) :
    ∀ q ∈ firstOccurSpec ps seen, q ∈ ps := by
  induction ps generalizing seen with
  | nil => simp [firstOccurSpec]
  | cons p rest ih =>
    intro q hq
    unfold firstOccurSpec at hq
    split at hq
    · exact List.mem_cons_of_mem _ (ih seen q hq)
    · rcases List.mem_cons.mp hq with h | h
      · subst h
        exact List.mem_cons_self _ _
      · exact List.mem_cons_of_mem _ (ih (seen ++ [p.text]) q h)

theorem dedup_two_identical (p q : PptParaRec) (h : p.text = q.text) :
    dedupParas [p, q] = [p] := by
  rw [dedupParas_eq_firstOccur]
  unfold firstOccurSpec
  rw [if_neg (by simp)]
  unfold firstOccurSpec
  rw [if_pos (by simp [h])]
  rfl

/-- Character lists with no leading and no trailing whitespace. -/
def goodEnds (cs : List Char) : Prop :=
  (∀ c, cs.head? = some c → Char.isWhitespace c = false) ∧
  (∀ c, cs.getLast? = some c → Char.isWhitespace c = false)

theorem dwHeadNot (p : Char → Bool) (l : List Char) :
    ∀ c, (l.dropWhile p).head? = some c → p c = false := by
  intro c hc
  have := List.head?_dropWhile_not p l
  rw [hc] at this
  exact this

theorem dwEqSelf (p : Char → Bool) (l : List Char)
    (h : ∀ c, l.head? = some c → p c = false) : l.dropWhile p = l := by
  cases l with
  | nil => rfl
  | cons c rest =>
    have := h c rfl
    simp [List.dropWhile_cons, this]

theorem pyStripList_goodEnds (cs : List Char) : goodEnds (pyStripList cs) := by
  unfold pyStripList goodEnds
  constructor
  · intro c hc
    rw [List.head?_reverse] at hc
    obtain ⟨t, ht⟩ := List.dropWhile_suffix (l := (cs.dropWhile Char.isWhitespace).reverse)
      (p := Char.isWhitespace)
    have hx : ((cs.dropWhile Char.isWhitespace).reverse).getLast? = some c := by
      rw [← ht, List.getLast?_append, hc]
      rfl
    rw [List.getLast?_reverse] at hx
    exact dwHeadNot _ _ c hx
  · intro c hc
    rw [List.getLast?_reverse] at hc
    exact dwHeadNot _ _ c hc

theorem pyStripList_fix (cs : List Char) (h : goodEnds cs) : pyStripList cs = cs := by
  unfold pyStripList
  have h1 : cs.dropWhile Char.isWhitespace = cs := dwEqSelf _ _ h.1
  rw [h1]
  have h2 : cs.reverse.dropWhile Char.isWhitespace = cs.reverse := by
    apply dwEqSelf
    intro c hc
    rw [List.head?_reverse] at hc
    exact h.2 c hc
  rw [h2, List.reverse_reverse]

theorem stringMkToList (s : String) : String.mk s.toList = s := rfl

theorem toList_pyStrip (s : String) : (pyStrip s).toList = pyStripList s.toList := rfl

theorem pyStrip_fix (s : String) (h : goodEnds s.toList) : pyStrip s = s := by
  unfold pyStrip
  rw [pyStripList_fix s.toList h]
  exact stringMkToList s

theorem toListNeNil {s : String} (h : s ≠ "") : s.toList ≠ [] := by
  intro hh
  apply h
  rw [← stringMkToList s, hh]

theorem goodEnds_append_sep (a b : List Char) (ha : goodEnds a) (hb : goodEnds b)
    (hane : a ≠ []) (hbne : b ≠ []) : goodEnds (a ++ ' ' :: b) := by
  constructor
  · intro c hc
    cases a with
    | nil => exact absurd rfl hane
    | cons a0 arest =>
      rw [List.cons_append, List.head?_cons] at hc
      injection hc with hac
      subst hac
      exact ha.1 a0 rfl
  · intro c hc
    rw [List.getLast?_append] at hc
    cases b with
    | nil => exact absurd rfl hbne
    | cons b0 brest =>
      rw [List.getLast?_cons_cons] at hc
      have hbs : ((b0 :: brest).getLast?).isSome := by
        rw [List.getLast?_isSome]
        simp
      obtain ⟨d, hd⟩ := Option.isSome_iff_exists.mp hbs
      rw [hd] at hc
      have hdc : d = c := by simpa using hc
      subst hdc
      exact hb.2 d hd

theorem pyJoinSp_goodEnds (l : List String)
    (h : ∀ s ∈ l, s ≠ "" ∧ goodEnds s.toList) (hne : l ≠ []) :
    (pyJoinSp l).toList ≠ [] ∧ goodEnds (pyJoinSp l).toList := by
  induction l with
  | nil => exact absurd rfl hne
  | cons s rest ih =>
    cases rest with
    | nil =>
      have hs := h s (List.mem_cons_self _ _)
      exact ⟨toListNeNil hs.1, hs.2⟩
    | cons t rrest =>
      have hs := h s (List.mem_cons_self _ _)
      have ihres := ih (fun x hx => h x (List.mem_cons_of_mem _ hx)) (by simp)
      have htl : (pyJoinSp (s :: t :: rrest)).toList
          = s.toList ++ ' ' :: (pyJoinSp (t :: rrest)).toList := by
        show (s ++ " " ++ pyJoinSp (t :: rrest)).data
          = s.data ++ ' ' :: (pyJoinSp (t :: rrest)).data
        rw [String.data_append, String.data_append]
        simp
      rw [htl]
      constructor
      · intro hh
        exact toListNeNil hs.1 (by simpa using List.append_eq_nil.mp hh |>.1)
      · exact goodEnds_append_sep _ _ hs.2 ihres.2 (toListNeNil hs.1) ihres.1

theorem pyStrip_pyJoinSp (l : List String)
    (h : ∀ s ∈ l, s ≠ "" ∧ goodEnds s.toList) :
    pyStrip (pyJoinSp l) = pyJoinSp l := by
  cases l with
  | nil => rfl
  | cons s rest =>
    exact pyStrip_fix _ ((pyJoinSp_goodEnds (s :: rest) h (by simp)).2)

theorem pptParaRecsOf_text_good (tf : PptTextFrame) :
    ∀ q ∈ pptParaRecsOf tf, q.text ≠ "" ∧ goodEnds q.text.toList := by
  intro q hq
  unfold pptParaRecsOf at hq
  rw [List.mem_filterMap] at hq
  obtain ⟨p, hp, hfp⟩ := hq
  simp only at hfp
  by_cases he : pyStrip p.text = ""
  · rw [if_pos he] at hfp
    cases hfp
  · rw [if_neg he] at hfp
    cases hfp
    refine ⟨he, ?_⟩
    rw [toList_pyStrip]
    exact pyStripList_goodEnds _

/-- C7: slide-deck text extraction drops every shape that resolves to no
non-empty text, omits entirely any slide left with no surviving shapes,
suppresses duplicate paragraph text within one shape keeping the first
occurrence (so two identical-text paragraphs yield the single record of the
first, runs included), and synthesizes the shape-level text field as the
de-duplicated paragraph texts joined by single spaces. -/
theorem slide_text_invariants (ss : List PptSlide) :
    (∀ rec ∈ slidesTextBody ss, rec.shapes ≠ [] ∧
      ∀ shr ∈ rec.shapes, ∃ t, shr.text = some t ∧ t ≠ "") ∧
    (∀ tf : PptTextFrame,
      dedupParas (pptParaRecsOf tf) = firstOccurSpec (pptParaRecsOf tf) [] ∧
      List.Pairwise (fun a b => a.text ≠ b.text) (dedupParas (pptParaRecsOf tf)) ∧
      ∀ q ∈ dedupParas (pptParaRecsOf tf), q ∈ pptParaRecsOf tf) ∧
    (∀ p q : PptParaRec, p.text = q.text → dedupParas [p, q] = [p]) ∧
    (∀ sh : PptShape, ∀ tf, sh.data.text_frame = some tf →
      (shapeTextRec sh).paragraphs = some (dedupParas (pptParaRecsOf tf)) ∧
      (shapeTextRec sh).text =
        some (pyJoinSp ((dedupParas (pptParaRecsOf tf)).map PptParaRec.text))) := by
  refine ⟨?_, ?_, ?_, ?_⟩
  · intro rec hrec
    unfold slidesTextBody at hrec
    rw [List.mem_filterMap] at hrec
    obtain ⟨pr, hpr, hf⟩ := hrec
    simp only at hf
    split at hf
    · exact absurd hf (by simp)
    · next hne =>
      cases hf
      refine ⟨by simpa using hne, ?_⟩
      intro shr hshr
      rw [List.mem_filterMap] at hshr
      obtain ⟨sh, hsh, hg⟩ := hshr
      cases hst : (shapeTextRec sh).text with
      | none =>
        rw [hst] at hg
        exact absurd hg (by simp)
      | some t =>
        rw [hst] at hg
        dsimp only at hg
        by_cases hte : t = ""
        · rw [if_pos hte] at hg
          exact absurd hg (by simp)
        · rw [if_neg hte] at hg
          cases hg
          exact ⟨t, hst, hte⟩
  · intro tf
    refine ⟨dedupParas_eq_firstOccur _, ?_, ?_⟩
    · rw [dedupParas_eq_firstOccur]
      exact firstOccur_pairwise _ _
    · rw [dedupParas_eq_firstOccur]
      exact firstOccur_mem_source _ _
  · exact dedup_two_identical
  · intro sh tf htf
    obtain ⟨d, ch⟩ := sh
    simp only [PptShape.data] at htf
    unfold shapeTextRec
    simp only [PptShape.data]
    rw [htf]
    dsimp only
    refine ⟨rfl, ?_⟩
    congr 1
    apply pyStrip_pyJoinSp
    intro s hs
    rw [List.mem_map] at hs
    obtain ⟨q, hq, hqs⟩ := hs
    subst hqs
    have hqsrc : q ∈ pptParaRecsOf tf := by
      rw [dedupParas_eq_firstOccur] at hq
      exact firstOccur_mem_source _ _ q hq
    exact pptParaRecsOf_text_good tf q hqsrc

/-- Paragraph with leading/trailing whitespace around "Hello". -/
def pParaA : PptPara := { text := " Hello ", alignment := none, runs := [runNoFont] }

/-- Second paragraph with the same stripped text. -/
def pParaB : PptPara := { text := "Hello", alignment := some 1, runs := [] }

/-- Text frame with two identical-text paragraphs. -/
def tfA : PptTextFrame := { paragraphs := [pParaA, pParaB] }

/-- Shape carrying `tfA`. -/
def shapeA : PptShape :=
  .mk { shape_id := some 1, left := none, top := none, width := none, height := none,
        shape_type := none, text_frame := some tfA, textAttr := none, click_action := none,
        accessRaises := false, has_table := false, tableAttr := none, image := none,
        fill := none, blips := [], part := { related_parts := none } } none

/-- Slide carrying `shapeA`. -/
def slideA : PptSlide := { shapes := [shapeA], rels := [] }

/-- Paragraph record of the first occurrence. -/
def paraRecA : PptParaRec :=
  { text := "Hello", alignment := none, runs := [pptRunRec runNoFont] }

/-- Paragraph record with the same text, different formatting. -/
def paraRecB : PptParaRec := { text := "Hello", alignment := some 1, runs := [] }

/-- Witness for C7 at the concrete fixtures: identical texts collapse to the
first record, the shape text field is the plain join, and the surviving
slide list has only non-empty shape lists. -/
theorem slide_text_invariants_witness :
    dedupParas [paraRecA, paraRecB] = [paraRecA] ∧
    (shapeTextRec shapeA).paragraphs = some (dedupParas (pptParaRecsOf tfA)) ∧
    (shapeTextRec shapeA).text =
      some (pyJoinSp ((dedupParas (pptParaRecsOf tfA)).map PptParaRec.text)) ∧
    ∀ rec ∈ slidesTextBody [slideA], rec.shapes ≠ [] :=
  ⟨(slide_text_invariants []).2.2.1 paraRecA paraRecB rfl,
    ((slide_text_invariants []).2.2.2 shapeA tfA rfl).1,
    ((slide_text_invariants []).2.2.2 shapeA tfA rfl).2,
    fun rec h => ((slide_text_invariants [slideA]).1 rec h).1⟩
